import Mathlib

/-!
Verification model of the greenboot boot-health checker
(src/main.rs and src/handler/mod.rs).

Strings are modelled as lists of characters (`Str`), the grub
environment (`grub2-editenv`) as an association list of variables, and
each external command's ability to run as a flag in a `World` record.
All functions mirror the Rust source; events record which external
commands (scripts, reboot, rollback) were invoked.
-/

namespace Greenboot

/-- Strings of the model: lists of characters. -/
abbrev Str := List Char

instance {ε α : Type} [DecidableEq ε] [DecidableEq α] :
    DecidableEq (Except ε α) := fun x y =>
  match x, y with
  | Except.ok a, Except.ok b =>
    if h : a = b then isTrue (by rw [h])
    else isFalse (by intro hc; cases hc; exact h rfl)
  | Except.ok _, Except.error _ => isFalse (by intro hc; cases hc)
  | Except.error _, Except.ok _ => isFalse (by intro hc; cases hc)
  | Except.error a, Except.error b =>
    if h : a = b then isTrue (by rw [h])
    else isFalse (by intro hc; cases hc; exact h rfl)

/-- `startsWith pat s`: `pat` is a prefix of `s`. -/
def startsWith : Str → Str → Bool
  | [], _ => true
  | _ :: _, [] => false
  | a :: as, b :: bs => a = b && startsWith as bs

/-- Substring test, modelling Rust `str::contains`. -/
def strContains : Str → Str → Bool
  | [], pat => startsWith pat []
  | c :: t, pat => startsWith pat (c :: t) || strContains t pat

/-- The segment of `l` after its last `'='`, modelling
`var.split('=').last()` in `get_boot_counter`. -/
def afterLastEq (l : Str) : Str :=
  (l.reverse.takeWhile (fun c => c ≠ '=')).reverse

/-- Numeric value of a digit character (Rust digit decoding). -/
def digitVal (c : Char) : Nat := c.toNat - 48

/-- Digit test for ASCII `'0'`–`'9'`. -/
def isDigitCh (c : Char) : Bool := 48 ≤ c.toNat && c.toNat ≤ 57

/-- Parse a nonempty all-digit string, most significant digit first
(the digit loop of Rust `str::parse`). -/
def parseNatDigits (s : Str) : Option Nat :=
  if s = [] then none
  else if s.all isDigitCh then
    some (s.foldl (fun a c => a * 10 + digitVal c) 0)
  else none

/-- Model of Rust `str::parse::<i32>()`: optional sign, digits,
result must fit in `i32`. -/
def parseI32 (s : Str) : Option Int :=
  match s with
  | [] => none
  | c :: rest =>
    if c = '-' then
      (parseNatDigits rest).bind fun n =>
        if (n : Int) ≤ 2 ^ 31 then some (-(n : Int)) else none
    else if c = '+' then
      (parseNatDigits rest).bind fun n =>
        if n < 2 ^ 31 then some ((n : Int)) else none
    else
      (parseNatDigits (c :: rest)).bind fun n =>
        if n < 2 ^ 31 then some ((n : Int)) else none

/-- Little-endian base-10 digits, computed with explicit fuel so that
the kernel can evaluate it; agrees with `Nat.digits 10` when the fuel
suffices (`digitsFuel_eq_digits`). -/
def digitsFuel : Nat → Nat → List Nat
  | 0, _ => []
  | fuel + 1, n => if n = 0 then [] else n % 10 :: digitsFuel fuel (n / 10)

/-- Decimal rendering of a natural number, modelling Rust `Display`. -/
def natToChars (n : Nat) : Str :=
  if n = 0 then ['0'] else ((digitsFuel n n).map Nat.digitChar).reverse

/-- Decimal rendering of an `i32`, modelling `format!` on the counter. -/
def intToChars (n : Int) : Str :=
  if n < 0 then '-' :: natToChars n.natAbs else natToChars n.toNat

/-- The grub variable name `boot_counter`. -/
def bcKey : Str := "boot_counter".data

/-- The grub variable name `boot_success`. -/
def bsKey : Str := "boot_success".data

/-- `grub2-editenv - set k=v`: replace the first binding of `k`,
or append one. -/
def setVar (k v : Str) : List (Str × Str) → List (Str × Str)
  | [] => [(k, v)]
  | p :: rest => if p.1 = k then (k, v) :: rest else p :: setVar k v rest

/-- `grub2-editenv - unset k`: remove every binding of `k`. -/
def unsetVar (k : Str) : List (Str × Str) → List (Str × Str)
  | [] => []
  | p :: rest => if p.1 = k then unsetVar k rest else p :: unsetVar k rest

/-- Value bound to `k`, if any (first binding). -/
def lookupVar (k : Str) : List (Str × Str) → Option Str
  | [] => none
  | p :: rest => if p.1 = k then some p.2 else lookupVar k rest

/-- The lines printed by `grub2-editenv - list`: one `name=value`
line per variable. -/
def envLines (env : List (Str × Str)) : List Str :=
  env.map fun p => p.1 ++ '=' :: p.2

/-- Outcome of executing one check script with `bash -C`. -/
inductive ScriptRun where
  | launchErr
  | exited (ok : Bool)
deriving DecidableEq

/-- A file in a check directory: its name and, if executed, how the
execution goes. -/
structure ScriptFile where
  name : Str
  run : ScriptRun
deriving DecidableEq

/-- The check directories under one greenboot installation root.
`requiredDir = none` models `check/required.d` not being a directory;
the other tiers are globbed without an existence test, so a missing
directory is the empty listing. -/
structure RootFS where
  requiredDir : Option (List ScriptFile)
  wantedDir : List ScriptFile
  redDir : List ScriptFile
  greenDir : List ScriptFile
deriving DecidableEq

/-- External command invocations observable during a run. -/
inductive Event where
  | runRequired (name : Str)
  | runWanted (name : Str)
  | runRed (name : Str)
  | runGreen (name : Str)
  | rebootCmd
  | rollbackCmd
deriving DecidableEq

/-- The state the program interacts with: the grub environment, the
two installation roots (`/usr/lib/greenboot` then `/etc/greenboot`),
the parsed configuration value, and whether each external command can
be spawned (`rollbackExit`: `none` = spawn failure, `some c` = exit
code `c`). -/
structure World where
  env : List (Str × Str)
  grubReadOk : Bool
  grubWriteOk : Bool
  motdOk : Bool
  rebootOk : Bool
  rollbackExit : Option Nat
  configVal : Option Int
  usrRoot : RootFS
  etcRoot : RootFS
deriving DecidableEq

def grubIoErrMsg : Str := "grub2-editenv command failed".data
def motdIoErrMsg : Str := "cannot open motd file".data
def scriptIoErrMsg : Str := "script execution failed".data
def rebootIoErrMsg : Str := "systemctl reboot failed to launch".data
def rollbackIoErrMsg : Str := "rpm-ostree failed to launch".data
def requiredNotFoundMsg : Str := "required.d not found".data
def healthFailedMsg : Str := "health-check failed!".data
def countdownEndedMsg : Str :=
  "countdown ended, check greenboot-rollback status".data
def counterUnsetMsg : Str := "boot_counter is not set".data
def rollbackCondMsg : Str :=
  "boot_counter is either unset or not equal to 0".data
def rollbackNotInitMsg : Str := "Rollback not initiated as ".data

/-- `ExitStatus::to_string()` for exit code `c`. -/
def statusStr (c : Nat) : Str := "exit status: ".data ++ natToChars c

/-- `get_boot_counter`: run `grub2-editenv - list`, take the first
line containing `boot_counter`, split on `'='`, parse the last part
as `i32`; any failure yields `none`. -/
def get_boot_counter (w : World) : Option Int :=
  if !w.grubReadOk then none
  else
    match (envLines w.env).find? (fun l => strContains l bcKey) with
    | none => none
    | some l => parseI32 (afterLastEq l)

/-- `set_boot_counter`: no-op when a counter is already readable,
otherwise `grub2-editenv - set boot_counter=n`. -/
def set_boot_counter (n : Int) (w : World) : Except Str Unit × World :=
  match get_boot_counter w with
  | some _ => (Except.ok (), w)
  | none =>
    if w.grubWriteOk then
      (Except.ok (), { w with env := setVar bcKey (intToChars n) w.env })
    else (Except.error grubIoErrMsg, w)

/-- `unset_boot_counter`: `grub2-editenv - unset boot_counter`. -/
def unset_boot_counter (w : World) : Except Str Unit × World :=
  if w.grubWriteOk then
    (Except.ok (), { w with env := unsetVar bcKey w.env })
  else (Except.error grubIoErrMsg, w)

/-- `handle_boot_success`: on `true` set `boot_success=1` then unset
`boot_counter`; on `false` only set `boot_success=0`. -/
def handle_boot_success (success : Bool) (w : World) :
    Except Str Unit × World :=
  if success then
    if w.grubWriteOk then
      (Except.ok (),
        { w with env := unsetVar bcKey (setVar bsKey "1".data w.env) })
    else (Except.error grubIoErrMsg, w)
  else
    if w.grubWriteOk then
      (Except.ok (), { w with env := setVar bsKey "0".data w.env })
    else (Except.error grubIoErrMsg, w)

/-- `handle_motd`: write the status line; pure side channel, only the
result is modelled. -/
def handle_motd (w : World) : Except Str Unit :=
  if w.motdOk then Except.ok () else Except.error motdIoErrMsg

/-- The `systemctl reboot` invocation at the end of `handle_reboot`. -/
def rebootNow (w : World) : Except Str Unit × List Event :=
  if w.rebootOk then (Except.ok (), [Event.rebootCmd])
  else (Except.error rebootIoErrMsg, [Event.rebootCmd])

/-- `handle_reboot`: unless forced, bail when the counter is `≤ 0`
or unset; otherwise run `systemctl reboot`. -/
def handle_reboot (force : Bool) (w : World) : Except Str Unit × List Event :=
  if force then rebootNow w
  else
    match get_boot_counter w with
    | some t =>
        if t ≤ 0 then (Except.error countdownEndedMsg, []) else rebootNow w
    | none => (Except.error counterUnsetMsg, [])

/-- `handle_rollback`: only with a counter `≤ 0` run
`rpm-ostree rollback`; bail with the exit status on a nonzero exit. -/
def handle_rollback (w : World) : Except Str Unit × List Event :=
  match get_boot_counter w with
  | some t =>
    if t ≤ 0 then
      match w.rollbackExit with
      | none => (Except.error rollbackIoErrMsg, [Event.rollbackCmd])
      | some c =>
        if c = 0 then (Except.ok (), [Event.rollbackCmd])
        else (Except.error (statusStr c), [Event.rollbackCmd])
    else (Except.error rollbackCondMsg, [])
  | none => (Except.error rollbackCondMsg, [])

/-- `trigger_rollback`: on `handle_rollback` success unset the counter
and force a reboot; on its failure wrap its error. -/
def trigger_rollback (w : World) : Except Str Unit × World × List Event :=
  match handle_rollback w with
  | (Except.ok _, es) =>
    match unset_boot_counter w with
    | (Except.ok _, w2) =>
      match handle_reboot true w2 with
      | (Except.ok _, es2) => (Except.ok (), w2, es ++ es2)
      | (Except.error e, es2) => (Except.error e, w2, es ++ es2)
    | (Except.error e, w2) => (Except.error e, w2, es)
  | (Except.error e, es) =>
    (Except.error (rollbackNotInitMsg ++ e), w, es)

/-- The glob `*.sh` of the required and wanted tiers: the name ends
in `.sh`. -/
def shName (s : Str) : Bool := List.isSuffixOf ".sh".data s

/-- The glob `*.*` of the red and green tiers: the name contains a
dot. -/
def dotName (s : Str) : Bool := s.contains '.'

/-- Run the scripts of one directory in order: a launch error aborts
with `Err` (the Rust `?` on `output()`); a nonzero exit sets the
failure flag only when the tier `affects` the verdict. -/
def runScripts (mk : Str → Event) (affects : Bool) :
    List ScriptFile → Bool → Except Str Bool × List Event
  | [], fail => (Except.ok fail, [])
  | f :: rest, fail =>
    match f.run with
    | ScriptRun.launchErr => (Except.error scriptIoErrMsg, [mk f.name])
    | ScriptRun.exited ok =>
      match runScripts mk affects rest (fail || (affects && !ok)) with
      | (r, es) => (r, mk f.name :: es)

/-- The required loop of `run_diagnostics` over the roots' (optional)
`check/required.d` listings, threading `path_exists` and
`script_failure`. -/
def requiredPass :
    List (Option (List ScriptFile)) → Bool → Bool →
      Except Str (Bool × Bool) × List Event
  | [], pathEx, fail => (Except.ok (pathEx, fail), [])
  | none :: rest, pathEx, fail => requiredPass rest pathEx fail
  | some files :: rest, _, fail =>
    match runScripts Event.runRequired true
        (files.filter fun f => shName f.name) fail with
    | (Except.error e, es) => (Except.error e, es)
    | (Except.ok fail2, es) =>
      match requiredPass rest true fail2 with
      | (r, es2) => (r, es ++ es2)

/-- A best-effort tier loop over the roots' listings (wanted, red,
green): failures are logged only, launch errors abort. -/
def tierPass (mk : Str → Event) (pat : Str → Bool) :
    List (List ScriptFile) → Except Str Unit × List Event
  | [] => (Except.ok (), [])
  | files :: rest =>
    match runScripts mk false (files.filter fun f => pat f.name) false with
    | (Except.error e, es) => (Except.error e, es)
    | (Except.ok _, es) =>
      match tierPass mk pat rest with
      | (r, es2) => (r, es ++ es2)

/-- `run_diagnostics`: required loop, then the `required.d not found`
check, then the wanted loop, then the `script_failure` verdict. -/
def run_diagnostics (w : World) : Except Str Unit × List Event :=
  match requiredPass [w.usrRoot.requiredDir, w.etcRoot.requiredDir]
      false false with
  | (Except.error e, es) => (Except.error e, es)
  | (Except.ok (pathEx, fail), es) =>
    if !pathEx then (Except.error requiredNotFoundMsg, es)
    else
      match tierPass Event.runWanted shName
          [w.usrRoot.wantedDir, w.etcRoot.wantedDir] with
      | (Except.error e, es2) => (Except.error e, es ++ es2)
      | (Except.ok _, es2) =>
        if fail then (Except.error healthFailedMsg, es ++ es2)
        else (Except.ok (), es ++ es2)

/-- `run_red`: best-effort `red.d/*.*` scripts of both roots. -/
def run_red (w : World) : Except Str Unit × List Event :=
  tierPass Event.runRed dotName [w.usrRoot.redDir, w.etcRoot.redDir]

/-- `run_green`: best-effort `green.d/*.*` scripts of both roots. -/
def run_green (w : World) : Except Str Unit × List Event :=
  tierPass Event.runGreen dotName [w.usrRoot.greenDir, w.etcRoot.greenDir]

/-- `GreenbootConfig::get_config().max_reboot`: the configured value,
or the default 3 when the file or key is missing or unparsable. -/
def maxRebootOf (w : World) : Int := w.configVal.getD 3

/-- `health_check`: run the diagnostics; on success run the green
scripts (errors swallowed), write the motd (swallowed) and mark boot
success (`?`, propagated); on failure write the motd (swallowed), run
the red scripts (swallowed), mark boot failure (`?`, propagated),
establish the counter (swallowed), call the counter-gated
`handle_reboot(false)` (swallowed) and re-raise the diagnostics
error. -/
def health_check (w : World) : Except Str Unit × World × List Event :=
  match run_diagnostics w with
  | (Except.ok _, es) =>
    match handle_boot_success true w with
    | (Except.ok _, w2) => (Except.ok (), w2, es ++ (run_green w).2)
    | (Except.error e, w2) => (Except.error e, w2, es ++ (run_green w).2)
  | (Except.error e, es) =>
    match handle_boot_success false w with
    | (Except.ok _, w2) =>
      match set_boot_counter (maxRebootOf w) w2 with
      | (_, w3) =>
        (Except.error e, w3,
          es ++ (run_red w).2 ++ (handle_reboot false w3).2)
    | (Except.error e2, w2) => (Except.error e2, w2, es ++ (run_red w).2)

/-- The part of a required-tier directory listing that the `*.sh` glob
discovers. -/
def filtOpt (o : Option (List ScriptFile)) : Option (List ScriptFile) :=
  o.map (List.filter fun f => shName f.name)

/-- Replace the red and green listings of both roots, leaving the
required and wanted listings untouched. -/
def updateRG (w : World) (r0 g0 r1 g1 : List ScriptFile) : World :=
  { w with
    usrRoot := { w.usrRoot with redDir := r0, greenDir := g0 },
    etcRoot := { w.etcRoot with redDir := r1, greenDir := g1 } }

/-- A root with no check directories at all. -/
def baseRoot : RootFS := ⟨none, [], [], []⟩

/-- A world with an empty grub environment, every external command
able to run, the rollback exiting 0, and no configuration file. -/
def baseWorld : World :=
  { env := [], grubReadOk := true, grubWriteOk := true, motdOk := true,
    rebootOk := true, rollbackExit := some 0, configVal := none,
    usrRoot := baseRoot, etcRoot := baseRoot }

/-- World for the C1 counterexample: the counter is exhausted
(`boot_counter=0`) and one required script fails. -/
def wC1 : World :=
  { baseWorld with
    env := [(bcKey, "0".data)],
    usrRoot :=
      { baseRoot with
        requiredDir := some [⟨"fail.sh".data, ScriptRun.exited false⟩] } }

/-- World for the C2 counterexample: the diagnostics pass but the grub
write commands cannot be spawned. -/
def wC2 : World :=
  { baseWorld with
    grubWriteOk := false,
    usrRoot :=
      { baseRoot with
        requiredDir := some [⟨"ok.sh".data, ScriptRun.exited true⟩] } }

/-- World for the C8 counterexample: every required script passes and
one wanted script cannot be launched. -/
def wC8 : World :=
  { baseWorld with
    usrRoot :=
      { baseRoot with
        requiredDir := some [⟨"ok.sh".data, ScriptRun.exited true⟩],
        wantedDir := [⟨"w.sh".data, ScriptRun.launchErr⟩] } }

/-- World used to witness C8: a required script that cannot be
launched. -/
def wC8b : World :=
  { baseWorld with
    usrRoot :=
      { baseRoot with
        requiredDir := some [⟨"bad.sh".data, ScriptRun.launchErr⟩] } }

/-- World for the C1 witness: counter unset, one failing required
script. -/
def wC1b : World :=
  { baseWorld with
    usrRoot :=
      { baseRoot with
        requiredDir := some [⟨"fail.sh".data, ScriptRun.exited false⟩] } }

/-- C10 witness world: a required directory holding a matching script
and a non-`*.sh` file. -/
def wC10a : World :=
  { baseWorld with
    usrRoot :=
      { baseRoot with
        requiredDir := some [⟨"ok.sh".data, ScriptRun.exited true⟩,
          ⟨"junk".data, ScriptRun.exited false⟩] } }

/-- C10 witness world: the same directory without the non-matching
file. -/
def wC10b : World :=
  { baseWorld with
    usrRoot :=
      { baseRoot with
        requiredDir := some [⟨"ok.sh".data, ScriptRun.exited true⟩] } }

/-! ### Digit and parse lemmas -/

theorem digitsFuel_eq_digits :
    ∀ (fuel n : Nat), n ≤ fuel → digitsFuel fuel n = Nat.digits 10 n := by
  intro fuel
  induction fuel with
  | zero => intro n hn; interval_cases n; simp [digitsFuel]
  | succ fuel ih =>
      intro n hn
      by_cases h0 : n = 0
      · simp [digitsFuel, h0]
      · rw [Nat.digits_def' (by norm_num) (Nat.pos_of_ne_zero h0)]
        simp only [digitsFuel, if_neg h0]
        congr 1
        exact ih _ (by omega)

theorem digitVal_digitChar {d : Nat} (h : d < 10) :
    digitVal (Nat.digitChar d) = d := by
  interval_cases d <;> decide

theorem isDigitCh_digitChar {d : Nat} (h : d < 10) :
    isDigitCh (Nat.digitChar d) = true := by
  interval_cases d <;> decide

theorem natToChars_all_digits (n : Nat) :
    (natToChars n).all isDigitCh = true := by
  unfold natToChars
  split
  · decide
  · rw [digitsFuel_eq_digits n n le_rfl]
    rw [List.all_eq_true]
    intro c hc
    rw [List.mem_reverse, List.mem_map] at hc
    obtain ⟨d, hd, rfl⟩ := hc
    exact isDigitCh_digitChar (Nat.digits_lt_base (by norm_num) hd)

theorem natToChars_ne_nil (n : Nat) : natToChars n ≠ [] := by
  unfold natToChars
  split
  · simp
  · rw [digitsFuel_eq_digits n n le_rfl]
    simp [Nat.digits_ne_nil_iff_ne_zero, *]

theorem foldl_digits_eq_ofDigits (l : List Nat) (a : Nat) :
    List.foldl (fun x d => x * 10 + d) a l.reverse
      = a * 10 ^ l.length + Nat.ofDigits 10 l := by
  induction l generalizing a with
  | nil => simp [Nat.ofDigits]
  | cons d t ih =>
      rw [List.reverse_cons, List.foldl_append]
      simp only [List.foldl_cons, List.foldl_nil, ih, Nat.ofDigits_cons,
        List.length_cons]
      ring

theorem parseNatDigits_natToChars (n : Nat) :
    parseNatDigits (natToChars n) = some n := by
  unfold parseNatDigits
  rw [if_neg (natToChars_ne_nil n), if_pos (natToChars_all_digits n)]
  congr 1
  unfold natToChars
  split
  · simp [digitVal]; omega
  · rw [digitsFuel_eq_digits n n le_rfl]
    rw [← List.map_reverse, List.foldl_map]
    have hext : List.foldl (fun a d => a * 10 + digitVal (Nat.digitChar d)) 0
        (Nat.digits 10 n).reverse
        = List.foldl (fun a d => a * 10 + d) 0 (Nat.digits 10 n).reverse := by
      apply List.foldl_ext
      intro a d hd
      rw [List.mem_reverse] at hd
      rw [digitVal_digitChar (Nat.digits_lt_base (by norm_num) hd)]
    rw [hext, foldl_digits_eq_ofDigits, Nat.ofDigits_digits]
    simp

theorem natToChars_head_digit (n : Nat) :
    ∃ c t, natToChars n = c :: t ∧ isDigitCh c = true := by
  have hall := natToChars_all_digits n
  have hne := natToChars_ne_nil n
  cases h : natToChars n with
  | nil => exact absurd h hne
  | cons c t =>
      refine ⟨c, t, rfl, ?_⟩
      rw [h, List.all_cons, Bool.and_eq_true] at hall
      exact hall.1

/-- Round trip: rendering an `i32` and parsing it back is the identity. -/
theorem parseI32_intToChars (n : Int) (h1 : -(2 ^ 31) ≤ n) (h2 : n < 2 ^ 31) :
    parseI32 (intToChars n) = some n := by
  unfold intToChars
  split
  · next hneg =>
      simp only [parseI32, if_pos rfl]
      rw [parseNatDigits_natToChars]
      have habs : (n.natAbs : Int) = -n := by omega
      have hle : ((n.natAbs : Int)) ≤ 2 ^ 31 := by omega
      simp only [Option.some_bind]
      rw [if_pos hle, habs, neg_neg]
      simp
  · next hpos =>
      obtain ⟨c, t, heq, hdig⟩ := natToChars_head_digit n.toNat
      rw [heq]
      have hc1 : ¬ c = '-' := by
        intro h; rw [h] at hdig; exact absurd hdig (by decide)
      have hc2 : ¬ c = '+' := by
        intro h; rw [h] at hdig; exact absurd hdig (by decide)
      simp only [parseI32, if_neg hc1, if_neg hc2]
      rw [← heq, parseNatDigits_natToChars]
      have hlt : n.toNat < 2 ^ 31 := by omega
      simp only [Option.some_bind]
      rw [if_pos hlt]
      congr 1
      omega

/-! ### Lemmas about the grub environment model -/

theorem startsWith_append (p t : Str) : startsWith p (p ++ t) = true := by
  induction p with
  | nil => rfl
  | cons c cs ih => simp [startsWith, ih]

theorem strContains_self_append (p t : Str) : strContains (p ++ t) p = true := by
  cases hp : p with
  | nil => cases t <;> simp [strContains, startsWith]
  | cons c cs =>
      show strContains (c :: (cs ++ t)) (c :: cs) = true
      unfold strContains
      have h : startsWith (c :: cs) (c :: (cs ++ t)) = true :=
        startsWith_append (c :: cs) t
      rw [h, Bool.true_or]

theorem takeWhile_append_all (p : Char → Bool) (l1 l2 : Str) (x : Char)
    (h1 : ∀ c ∈ l1, p c = true) (hx : p x = false) :
    (l1 ++ x :: l2).takeWhile p = l1 := by
  induction l1 with
  | nil => simp [List.takeWhile_cons, hx]
  | cons c cs ih =>
      have hc : p c = true := h1 c (by simp)
      simp [List.takeWhile_cons, hc, ih (fun d hd => h1 d (by simp [hd]))]

theorem afterLastEq_append (k v : Str) (hv : '=' ∉ v) :
    afterLastEq (k ++ '=' :: v) = v := by
  unfold afterLastEq
  rw [List.reverse_append, List.reverse_cons, List.append_assoc]
  show ((v.reverse ++ '=' :: k.reverse).takeWhile _).reverse = v
  rw [takeWhile_append_all _ v.reverse k.reverse '='
    (fun c hc => by
      simp only [decide_eq_true_eq]
      intro hcEq
      exact hv (by rw [← hcEq]; exact List.mem_reverse.mp hc))
    (by simp)]
  exact List.reverse_reverse v

theorem eq_char_not_mem_natToChars (n : Nat) : '=' ∉ natToChars n := by
  intro hmem
  have hall := natToChars_all_digits n
  rw [List.all_eq_true] at hall
  exact absurd (hall _ hmem) (by decide)

theorem eq_char_not_mem_intToChars (n : Int) : '=' ∉ intToChars n := by
  unfold intToChars
  split
  · intro hmem
    rcases List.mem_cons.mp hmem with h | h
    · exact absurd h (by decide)
    · exact eq_char_not_mem_natToChars _ h
  · exact eq_char_not_mem_natToChars _

/-- Well-formed grub environment: only the two variables this program
writes, and `boot_success` holds `0` or `1`. -/
def WFenv (env : List (Str × Str)) : Prop :=
  ∀ p ∈ env, p.1 = bcKey ∨ (p.1 = bsKey ∧ (p.2 = "0".data ∨ p.2 = "1".data))

theorem bc_line_match (v : Str) :
    strContains (bcKey ++ '=' :: v) bcKey = true :=
  strContains_self_append bcKey ('=' :: v)

theorem bs_line_no_match (v : Str) (hv : v = "0".data ∨ v = "1".data) :
    strContains (bsKey ++ '=' :: v) bcKey = false := by
  rcases hv with rfl | rfl <;> decide

theorem WFenv_setVar_bc (s : Str) :
    ∀ env, WFenv env → WFenv (setVar bcKey s env) := by
  intro env
  induction env with
  | nil => intro _ p hp; simp [setVar] at hp; simp [hp]
  | cons q rest ih =>
      intro hwf
      unfold setVar
      split
      · intro p hp
        rcases List.mem_cons.mp hp with rfl | h
        · simp
        · exact hwf p (List.mem_cons_of_mem _ h)
      · intro p hp
        rcases List.mem_cons.mp hp with rfl | h
        · exact hwf p (List.mem_cons_self _ _)
        · exact ih (fun r hr => hwf r (List.mem_cons_of_mem _ hr)) p h

theorem WFenv_setVar_bs (u : Str) (hu : u = "0".data ∨ u = "1".data) :
    ∀ env, WFenv env → WFenv (setVar bsKey u env) := by
  intro env
  induction env with
  | nil => intro _ p hp; simp [setVar] at hp; simp [hp, hu]
  | cons q rest ih =>
      intro hwf
      unfold setVar
      split
      · intro p hp
        rcases List.mem_cons.mp hp with rfl | h
        · simp [hu]
        · exact hwf p (List.mem_cons_of_mem _ h)
      · intro p hp
        rcases List.mem_cons.mp hp with rfl | h
        · exact hwf p (List.mem_cons_self _ _)
        · exact ih (fun r hr => hwf r (List.mem_cons_of_mem _ hr)) p h

theorem WFenv_unsetVar (k : Str) :
    ∀ env, WFenv env → WFenv (unsetVar k env) := by
  intro env
  induction env with
  | nil => intro h; exact h
  | cons q rest ih =>
      intro hwf
      unfold unsetVar
      split
      · exact ih fun r hr => hwf r (List.mem_cons_of_mem _ hr)
      · intro p hp
        rcases List.mem_cons.mp hp with rfl | h
        · exact hwf p (List.mem_cons_self _ _)
        · exact ih (fun r hr => hwf r (List.mem_cons_of_mem _ hr)) p h

theorem find_setCounter (s : Str) :
    ∀ env, WFenv env →
      (envLines (setVar bcKey s env)).find? (fun l => strContains l bcKey)
        = some (bcKey ++ '=' :: s) := by
  intro env
  induction env with
  | nil =>
      intro _
      simp [setVar, envLines, List.find?, bc_line_match]
  | cons q rest ih =>
      intro hwf
      unfold setVar
      split
      · next hq =>
          simp [envLines, List.find?, bc_line_match]
      · next hq =>
          rcases hwf q (List.mem_cons_self _ _) with hk | ⟨hk, hv⟩
          · exact absurd hk hq
          · have hline : strContains (q.1 ++ '=' :: q.2) bcKey = false := by
              rw [hk]; exact bs_line_no_match q.2 hv
            simp only [envLines, List.map_cons, List.find?_cons, hline]
            exact ih fun r hr => hwf r (List.mem_cons_of_mem _ hr)

theorem find_unsetCounter :
    ∀ env, WFenv env →
      (envLines (unsetVar bcKey env)).find? (fun l => strContains l bcKey)
        = none := by
  intro env
  induction env with
  | nil => intro _; rfl
  | cons q rest ih =>
      intro hwf
      unfold unsetVar
      split
      · exact ih fun r hr => hwf r (List.mem_cons_of_mem _ hr)
      · next hq =>
          rcases hwf q (List.mem_cons_self _ _) with hk | ⟨hk, hv⟩
          · exact absurd hk hq
          · have hline : strContains (q.1 ++ '=' :: q.2) bcKey = false := by
              rw [hk]; exact bs_line_no_match q.2 hv
            simp only [envLines, List.map_cons, List.find?_cons, hline]
            exact ih fun r hr => hwf r (List.mem_cons_of_mem _ hr)

theorem find_setSuccess (u : Str) (hu : u = "0".data ∨ u = "1".data) :
    ∀ env, WFenv env →
      (envLines (setVar bsKey u env)).find? (fun l => strContains l bcKey)
        = (envLines env).find? (fun l => strContains l bcKey) := by
  intro env
  induction env with
  | nil =>
      intro _
      have hline : strContains (bsKey ++ '=' :: u) bcKey = false :=
        bs_line_no_match u hu
      simp [setVar, envLines, List.find?, hline]
  | cons q rest ih =>
      intro hwf
      unfold setVar
      split
      · next hq =>
          rcases hwf q (List.mem_cons_self _ _) with hk | ⟨hk, hv⟩
          · exact absurd (hq.symm.trans hk) (by decide)
          · have hline1 : strContains (bsKey ++ '=' :: u) bcKey = false :=
              bs_line_no_match u hu
            have hline2 : strContains (q.1 ++ '=' :: q.2) bcKey = false := by
              rw [hk]; exact bs_line_no_match q.2 hv
            simp only [envLines, List.map_cons, List.find?_cons, hline1, hline2]
      · next hq =>
          rcases hwf q (List.mem_cons_self _ _) with hk | ⟨hk, hv⟩
          · have hline : strContains (q.1 ++ '=' :: q.2) bcKey = true := by
              rw [hk]; exact bc_line_match q.2
            simp only [envLines, List.map_cons, List.find?_cons, hline]
          · have hline : strContains (q.1 ++ '=' :: q.2) bcKey = false := by
              rw [hk]; exact bs_line_no_match q.2 hv
            simp only [envLines, List.map_cons, List.find?_cons, hline]
            exact ih fun r hr => hwf r (List.mem_cons_of_mem _ hr)

theorem get_boot_counter_env_set (w : World) (M : Int) (hwf : WFenv w.env)
    (hr : w.grubReadOk = true) (h1 : -(2 ^ 31) ≤ M) (h2 : M < 2 ^ 31) :
    get_boot_counter { w with env := setVar bcKey (intToChars M) w.env }
      = some M := by
  unfold get_boot_counter
  simp only [hr, Bool.not_true, Bool.false_eq_true, if_false]
  rw [find_setCounter _ _ hwf]
  show parseI32 (afterLastEq (bcKey ++ '=' :: intToChars M)) = some M
  rw [afterLastEq_append _ _ (eq_char_not_mem_intToChars M)]
  exact parseI32_intToChars M h1 h2

theorem get_boot_counter_env_unset (w : World) (hwf : WFenv w.env) :
    get_boot_counter { w with env := unsetVar bcKey w.env } = none := by
  unfold get_boot_counter
  by_cases hr : w.grubReadOk
  · simp only [hr, Bool.not_true, Bool.false_eq_true, if_false]
    rw [find_unsetCounter _ hwf]
  · simp [hr]

theorem get_boot_counter_env_setSuccess (w : World) (u : Str)
    (hu : u = "0".data ∨ u = "1".data) (hwf : WFenv w.env) :
    get_boot_counter { w with env := setVar bsKey u w.env }
      = get_boot_counter w := by
  unfold get_boot_counter
  by_cases hr : w.grubReadOk
  · simp only [hr, Bool.not_true, Bool.false_eq_true, if_false]
    rw [find_setSuccess u hu _ hwf]
  · simp [hr]

theorem lookupVar_setVar_same (k v : Str) :
    ∀ env, lookupVar k (setVar k v env) = some v := by
  intro env
  induction env with
  | nil => simp [setVar, lookupVar]
  | cons q rest ih =>
      unfold setVar
      split
      · simp [lookupVar]
      · next hq => simp only [lookupVar, if_neg hq]; exact ih

theorem lookupVar_setVar_other (k k' v : Str) (h : k ≠ k') :
    ∀ env, lookupVar k (setVar k' v env) = lookupVar k env := by
  intro env
  induction env with
  | nil => simp [setVar, lookupVar, (Ne.symm h : k' ≠ k)]
  | cons q rest ih =>
      unfold setVar
      split
      · next hq =>
          simp only [lookupVar, if_neg (fun hc : k' = k => h hc.symm)]
          rw [hq, if_neg (fun hc : k' = k => h hc.symm)]
      · next hq => simp only [lookupVar]; rw [ih]

theorem lookupVar_unsetVar_same (k : Str) :
    ∀ env, lookupVar k (unsetVar k env) = none := by
  intro env
  induction env with
  | nil => rfl
  | cons q rest ih =>
      unfold unsetVar
      split
      · exact ih
      · next hq => simp only [lookupVar, if_neg hq]; exact ih

theorem lookupVar_unsetVar_other (k k' : Str) (h : k ≠ k') :
    ∀ env, lookupVar k (unsetVar k' env) = lookupVar k env := by
  intro env
  induction env with
  | nil => rfl
  | cons q rest ih =>
      unfold unsetVar
      split
      · next hq =>
          rw [ih]
          have : ¬ q.1 = k := by rw [hq]; exact fun hc => h hc.symm
          simp only [lookupVar, if_neg this]
      · simp only [lookupVar]; rw [ih]

/-! ### Lemmas about the script runner -/

theorem runScripts_ok_all (mk : Str → Event) (affects : Bool) :
    ∀ (files : List ScriptFile) (fail : Bool),
      (∀ f ∈ files, f.run = ScriptRun.exited true) →
      ∃ es, runScripts mk affects files fail = (Except.ok fail, es) := by
  intro files
  induction files with
  | nil => intro fail _; exact ⟨[], rfl⟩
  | cons f rest ih =>
      intro fail hall
      have hf : f.run = ScriptRun.exited true := hall f (by simp)
      obtain ⟨es, hrec⟩ := ih (fail || (affects && !true))
        (fun g hg => hall g (by simp [hg]))
      refine ⟨mk f.name :: es, ?_⟩
      simp only [runScripts, hf, hrec]
      simp only [Bool.not_true, Bool.and_false, Bool.or_false] at hrec
      simp [hrec]

theorem runScripts_no_launch (mk : Str → Event) :
    ∀ (files : List ScriptFile) (fail : Bool),
      (∀ f ∈ files, f.run ≠ ScriptRun.launchErr) →
      ∃ es, runScripts mk false files fail = (Except.ok fail, es) := by
  intro files
  induction files with
  | nil => intro fail _; exact ⟨[], rfl⟩
  | cons f rest ih =>
      intro fail hall
      rcases hf : f.run with _ | ok
      · exact absurd hf (hall f (by simp))
      · obtain ⟨es, hrec⟩ := ih (fail || (false && !ok))
          (fun g hg => hall g (by simp [hg]))
        refine ⟨mk f.name :: es, ?_⟩
        simp only [runScripts, hf, hrec]
        simp only [Bool.false_and, Bool.or_false] at hrec
        simp [hrec]

theorem runScripts_err (mk : Str → Event) (affects : Bool) :
    ∀ (files : List ScriptFile) (fail : Bool),
      (∃ f ∈ files, f.run = ScriptRun.launchErr) →
      ∃ es, runScripts mk affects files fail
        = (Except.error scriptIoErrMsg, es) := by
  intro files
  induction files with
  | nil => intro fail h; simp at h
  | cons f rest ih =>
      intro fail hex
      rcases hf : f.run with _ | ok
      · exact ⟨[mk f.name], by simp only [runScripts, hf]⟩
      · rcases hex with ⟨g, hg, hgl⟩
        rcases List.mem_cons.mp hg with rfl | hgr
        · rw [hf] at hgl; cases hgl
        · obtain ⟨es, hrec⟩ := ih (fail || (affects && !ok)) ⟨g, hgr, hgl⟩
          refine ⟨mk f.name :: es, ?_⟩
          simp only [runScripts, hf, hrec]

theorem runScripts_events (mk : Str → Event) (affects : Bool) :
    ∀ (files : List ScriptFile) (fail : Bool),
      ∀ e ∈ (runScripts mk affects files fail).2,
        ∃ f ∈ files, e = mk f.name := by
  intro files
  induction files with
  | nil => intro fail e he; simp [runScripts] at he
  | cons f rest ih =>
      intro fail e he
      rcases hf : f.run with _ | ok
      · simp only [runScripts, hf] at he
        simp only [List.mem_singleton] at he
        exact ⟨f, by simp, he⟩
      · rcases hrs : runScripts mk affects rest (fail || (affects && !ok))
          with ⟨res, es⟩
        simp only [runScripts, hf, hrs] at he
        simp only [List.mem_cons] at he
        rcases he with rfl | he
        · exact ⟨f, by simp, rfl⟩
        · obtain ⟨g, hg, hge⟩ := ih _ e (by rw [hrs]; exact he)
          exact ⟨g, by simp [hg], hge⟩

/-! ### Lemmas about the tier loops -/

theorem requiredPass_all_ok (dirs : List (Option (List ScriptFile)))
    (h : ∀ d ∈ dirs, ∀ files, d = some files →
      ∀ f ∈ files, shName f.name = true → f.run = ScriptRun.exited true) :
    ∀ pe fail, ∃ es, requiredPass dirs pe fail
      = (Except.ok (pe || dirs.any Option.isSome, fail), es) := by
  induction dirs with
  | nil => intro pe fail; exact ⟨[], by simp [requiredPass]⟩
  | cons d rest ih =>
      intro pe fail
      cases d with
      | none =>
          obtain ⟨es, hrec⟩ := ih (fun d hd => h d (by simp [hd])) pe fail
          refine ⟨es, ?_⟩
          show requiredPass rest pe fail = _
          rw [hrec]
          simp
      | some files =>
          have hall : ∀ f ∈ files.filter (fun f => shName f.name),
              f.run = ScriptRun.exited true := by
            intro f hf
            have hm := List.mem_filter.mp hf
            exact h (some files) (by simp) files rfl f hm.1 hm.2
          obtain ⟨es1, hrs⟩ := runScripts_ok_all Event.runRequired true
            (files.filter fun f => shName f.name) fail hall
          obtain ⟨es2, hrp⟩ := ih (fun d hd => h d (by simp [hd])) true fail
          refine ⟨es1 ++ es2, ?_⟩
          simp only [requiredPass, hrs, hrp]
          simp

theorem requiredPass_err (dirs : List (Option (List ScriptFile)))
    (h : ∃ d ∈ dirs, ∃ files, d = some files ∧
      ∃ f ∈ files.filter (fun f => shName f.name),
        f.run = ScriptRun.launchErr) :
    ∀ pe fail, ∃ msg es,
      requiredPass dirs pe fail = (Except.error msg, es) := by
  induction dirs with
  | nil => simp at h
  | cons d rest ih =>
      intro pe fail
      cases d with
      | none =>
          rcases h with ⟨d, hd, files, hdf, hex⟩
          rcases List.mem_cons.mp hd with rfl | hdr
          · cases hdf
          · exact ih ⟨d, hdr, files, hdf, hex⟩ pe fail
      | some files =>
          rcases hrs : runScripts Event.runRequired true
              (files.filter fun f => shName f.name) fail with ⟨res, es⟩
          cases res with
          | error msg =>
              exact ⟨msg, es, by simp only [requiredPass, hrs]⟩
          | ok fail2 =>
              rcases h with ⟨d, hd, files2, hdf, hex⟩
              rcases List.mem_cons.mp hd with rfl | hdr
              · have hf2 : files2 = files := by
                  injection hdf with h
                  exact h.symm
                subst hf2
                obtain ⟨es3, hbad⟩ := runScripts_err Event.runRequired true
                  (files2.filter fun f => shName f.name) fail hex
                rw [hrs] at hbad
                simp at hbad
              · obtain ⟨msg, es2, hmsg⟩ := ih ⟨d, hdr, files2, hdf, hex⟩
                  true fail2
                exact ⟨msg, es ++ es2, by
                  simp only [requiredPass, hrs, hmsg]⟩

theorem tierPass_ok (mk : Str → Event) (pat : Str → Bool)
    (dirss : List (List ScriptFile))
    (h : ∀ files ∈ dirss, ∀ f ∈ files, pat f.name = true →
      f.run ≠ ScriptRun.launchErr) :
    ∃ es, tierPass mk pat dirss = (Except.ok (), es) := by
  induction dirss with
  | nil => exact ⟨[], rfl⟩
  | cons files rest ih =>
      obtain ⟨es1, hrs⟩ := runScripts_no_launch mk
        (files.filter fun f => pat f.name) false (by
          intro f hf
          have hm := List.mem_filter.mp hf
          exact h files (by simp) f hm.1 hm.2)
      obtain ⟨es2, hrp⟩ := ih fun fs hfs f hf hp => h fs (by simp [hfs]) f hf hp
      exact ⟨es1 ++ es2, by simp only [tierPass, hrs, hrp]⟩

theorem tierPass_err (mk : Str → Event) (pat : Str → Bool)
    (dirss : List (List ScriptFile))
    (h : ∃ files ∈ dirss, ∃ f ∈ files.filter (fun f => pat f.name),
      f.run = ScriptRun.launchErr) :
    ∃ msg es, tierPass mk pat dirss = (Except.error msg, es) := by
  induction dirss with
  | nil => simp at h
  | cons files rest ih =>
      rcases hrs : runScripts mk false (files.filter fun f => pat f.name)
          false with ⟨res, es⟩
      cases res with
      | error msg => exact ⟨msg, es, by simp only [tierPass, hrs]⟩
      | ok _ =>
          rcases h with ⟨fs, hfs, hex⟩
          rcases List.mem_cons.mp hfs with rfl | hfsr
          · obtain ⟨es3, hbad⟩ := runScripts_err mk false
              (fs.filter fun f => pat f.name) false hex
            rw [hrs] at hbad
            simp at hbad
          · obtain ⟨msg, es2, hmsg⟩ := ih ⟨fs, hfsr, hex⟩
            exact ⟨msg, es ++ es2, by simp only [tierPass, hrs, hmsg]⟩

theorem tierPass_events (mk : Str → Event) (pat : Str → Bool)
    (dirss : List (List ScriptFile)) :
    ∀ e ∈ (tierPass mk pat dirss).2,
      ∃ nm, pat nm = true ∧ e = mk nm := by
  induction dirss with
  | nil => intro e he; simp [tierPass] at he
  | cons files rest ih =>
      intro e he
      rcases hrs : runScripts mk false (files.filter fun f => pat f.name)
          false with ⟨res, es⟩
      simp only [tierPass, hrs] at he
      cases res with
      | error msg =>
          simp only at he
          obtain ⟨f, hf, hfe⟩ := runScripts_events mk false _ false e
            (by rw [hrs]; exact he)
          exact ⟨f.name, (List.mem_filter.mp hf).2, hfe⟩
      | ok u =>
          rcases hrp : tierPass mk pat rest with ⟨res2, es2⟩
          simp only [hrp] at he
          simp only [List.mem_append] at he
          rcases he with he | he
          · obtain ⟨f, hf, hfe⟩ := runScripts_events mk false _ false e
              (by rw [hrs]; exact he)
            exact ⟨f.name, (List.mem_filter.mp hf).2, hfe⟩
          · exact ih e (by rw [hrp]; exact he)

theorem requiredPass_events (dirs : List (Option (List ScriptFile))) :
    ∀ pe fail, ∀ e ∈ (requiredPass dirs pe fail).2,
      ∃ nm, shName nm = true ∧ e = Event.runRequired nm := by
  induction dirs with
  | nil => intro pe fail e he; simp [requiredPass] at he
  | cons d rest ih =>
      intro pe fail e he
      cases d with
      | none => exact ih pe fail e he
      | some files =>
          rcases hrs : runScripts Event.runRequired true
              (files.filter fun f => shName f.name) fail with ⟨res, es⟩
          simp only [requiredPass, hrs] at he
          cases res with
          | error msg =>
              simp only at he
              obtain ⟨f, hf, hfe⟩ := runScripts_events Event.runRequired true
                _ fail e (by rw [hrs]; exact he)
              exact ⟨f.name, (List.mem_filter.mp hf).2, hfe⟩
          | ok fail2 =>
              rcases hrp : requiredPass rest true fail2 with ⟨res2, es2⟩
              simp only [hrp] at he
              simp only [List.mem_append] at he
              rcases he with he | he
              · obtain ⟨f, hf, hfe⟩ := runScripts_events Event.runRequired
                  true _ fail e (by rw [hrs]; exact he)
                exact ⟨f.name, (List.mem_filter.mp hf).2, hfe⟩
              · exact ih true fail2 e (by rw [hrp]; exact he)

/-! ### Lemmas about the diagnostics and orchestration -/

theorem run_diagnostics_events (w : World) :
    ∀ e ∈ (run_diagnostics w).2,
      (∃ nm, shName nm = true ∧ e = Event.runRequired nm)
      ∨ (∃ nm, shName nm = true ∧ e = Event.runWanted nm) := by
  intro e he
  rcases hrp : requiredPass [w.usrRoot.requiredDir, w.etcRoot.requiredDir]
      false false with ⟨res, es1⟩
  simp only [run_diagnostics, hrp] at he
  cases res with
  | error m =>
      exact Or.inl (requiredPass_events _ false false e (by rw [hrp]; exact he))
  | ok pf =>
      rcases pf with ⟨pathEx, fail⟩
      cases pathEx with
      | false =>
          simp only [Bool.not_false, if_true] at he
          exact Or.inl (requiredPass_events _ false false e
            (by rw [hrp]; exact he))
      | true =>
          simp only [Bool.not_true, if_false] at he
          rcases htp : tierPass Event.runWanted shName
              [w.usrRoot.wantedDir, w.etcRoot.wantedDir] with ⟨res2, es2⟩
          simp only [htp] at he
          cases res2 with
          | error m =>
              rcases List.mem_append.mp he with he | he
              · exact Or.inl (requiredPass_events _ false false e
                  (by rw [hrp]; exact he))
              · obtain ⟨nm, hnm, hnme⟩ := tierPass_events Event.runWanted
                  shName _ e (by rw [htp]; exact he)
                exact Or.inr ⟨nm, hnm, hnme⟩
          | ok u =>
              have he2 : e ∈ es1 ++ es2 := by
                cases fail with
                | false => simpa using he
                | true => simpa using he
              rcases List.mem_append.mp he2 with he3 | he3
              · exact Or.inl (requiredPass_events _ false false e
                  (by rw [hrp]; exact he3))
              · obtain ⟨nm, hnm, hnme⟩ := tierPass_events Event.runWanted
                  shName _ e (by rw [htp]; exact he3)
                exact Or.inr ⟨nm, hnm, hnme⟩

theorem run_diagnostics_ok (w : World)
    (hp : w.usrRoot.requiredDir.isSome = true
      ∨ w.etcRoot.requiredDir.isSome = true)
    (hreq : ∀ d ∈ [w.usrRoot.requiredDir, w.etcRoot.requiredDir],
      ∀ files, d = some files →
        ∀ f ∈ files, shName f.name = true → f.run = ScriptRun.exited true)
    (hwant : ∀ files ∈ [w.usrRoot.wantedDir, w.etcRoot.wantedDir],
      ∀ f ∈ files, shName f.name = true → f.run ≠ ScriptRun.launchErr) :
    ∃ es, run_diagnostics w = (Except.ok (), es) := by
  obtain ⟨es1, hrp⟩ := requiredPass_all_ok
    [w.usrRoot.requiredDir, w.etcRoot.requiredDir] hreq false false
  have hany : ([w.usrRoot.requiredDir, w.etcRoot.requiredDir].any
      Option.isSome) = true := by
    rcases hp with hp | hp <;> simp [hp]
  rw [hany] at hrp
  obtain ⟨es2, htp⟩ := tierPass_ok Event.runWanted shName
    [w.usrRoot.wantedDir, w.etcRoot.wantedDir] hwant
  refine ⟨es1 ++ es2, ?_⟩
  simp only [run_diagnostics, hrp, htp, Bool.false_or, Bool.not_true]
  simp

theorem run_diagnostics_err_required (w : World)
    (h : ∃ d ∈ [w.usrRoot.requiredDir, w.etcRoot.requiredDir],
      ∃ files, d = some files ∧
        ∃ f ∈ files.filter (fun f => shName f.name),
          f.run = ScriptRun.launchErr) :
    ∃ msg es, run_diagnostics w = (Except.error msg, es) := by
  obtain ⟨msg, es, hrp⟩ := requiredPass_err _ h false false
  exact ⟨msg, es, by simp only [run_diagnostics, hrp]⟩

theorem run_diagnostics_err_wanted (w : World)
    (h : ∃ files ∈ [w.usrRoot.wantedDir, w.etcRoot.wantedDir],
      ∃ f ∈ files.filter (fun f => shName f.name),
        f.run = ScriptRun.launchErr) :
    ∃ msg es, run_diagnostics w = (Except.error msg, es) := by
  rcases hrp : requiredPass [w.usrRoot.requiredDir, w.etcRoot.requiredDir]
      false false with ⟨res, es1⟩
  cases res with
  | error m => exact ⟨m, es1, by simp only [run_diagnostics, hrp]⟩
  | ok pf =>
      rcases pf with ⟨pathEx, fail⟩
      cases pathEx with
      | false =>
          exact ⟨requiredNotFoundMsg, es1, by
            simp only [run_diagnostics, hrp, Bool.not_false, if_true]⟩
      | true =>
          obtain ⟨msg, es2, htp⟩ := tierPass_err Event.runWanted shName _ h
          refine ⟨msg, es1 ++ es2, ?_⟩
          simp only [run_diagnostics, hrp, Bool.not_true, htp]
          simp

theorem health_check_err_of_diag (w : World) (e : Str)
    (hd : (run_diagnostics w).1 = Except.error e) :
    (health_check w).1.isOk = false := by
  rcases hdq : run_diagnostics w with ⟨res, es⟩
  rw [hdq] at hd
  replace hd : res = Except.error e := hd
  subst hd
  rcases hbs : handle_boot_success false w with ⟨bres, w2⟩
  cases bres with
  | ok u =>
      rcases hsc : set_boot_counter (maxRebootOf w) w2 with ⟨sres, w3⟩
      simp only [health_check, hdq, hbs, hsc]
      rfl
  | error e2 =>
      simp only [health_check, hdq, hbs]
      rfl

theorem requiredPass_congr :
    ∀ (dirs dirs' : List (Option (List ScriptFile))),
      dirs.map filtOpt = dirs'.map filtOpt →
      ∀ pe fail, requiredPass dirs pe fail = requiredPass dirs' pe fail := by
  intro dirs
  induction dirs with
  | nil =>
      intro dirs' h pe fail
      cases dirs' with
      | nil => rfl
      | cons d' rest' => simp at h
  | cons d rest ih =>
      intro dirs' h pe fail
      cases dirs' with
      | nil => simp at h
      | cons d' rest' =>
          simp only [List.map_cons, List.cons.injEq] at h
          obtain ⟨hd, hrest⟩ := h
          cases d with
          | none =>
              cases d' with
              | none =>
                  show requiredPass rest pe fail = requiredPass rest' pe fail
                  exact ih rest' hrest pe fail
              | some fs' => simp [filtOpt] at hd
          | some fs =>
              cases d' with
              | none => simp [filtOpt] at hd
              | some fs' =>
                  have hf : fs.filter (fun f => shName f.name)
                      = fs'.filter (fun f => shName f.name) := by
                    simpa [filtOpt] using hd
                  simp only [requiredPass, hf]
                  rcases hrs : runScripts Event.runRequired true
                      (fs'.filter fun f => shName f.name) fail with ⟨res, es⟩
                  cases res with
                  | error m => rfl
                  | ok f2 =>
                      dsimp only
                      rw [ih rest' hrest true f2]

theorem tierPass_congr (mk : Str → Event) (pat : Str → Bool) :
    ∀ (ds ds' : List (List ScriptFile)),
      ds.map (List.filter fun f => pat f.name)
        = ds'.map (List.filter fun f => pat f.name) →
      tierPass mk pat ds = tierPass mk pat ds' := by
  intro ds
  induction ds with
  | nil =>
      intro ds' h
      cases ds' with
      | nil => rfl
      | cons => simp at h
  | cons files rest ih =>
      intro ds' h
      cases ds' with
      | nil => simp at h
      | cons files' rest' =>
          simp only [List.map_cons, List.cons.injEq] at h
          obtain ⟨hf, hrest⟩ := h
          simp only [tierPass, hf]
          rcases hrs : runScripts mk false
              (files'.filter fun f => pat f.name) false with ⟨res, es⟩
          cases res with
          | error m => rfl
          | ok u =>
              dsimp only
              rw [ih rest' hrest]

theorem run_diagnostics_congr (w w' : World)
    (h1 : filtOpt w.usrRoot.requiredDir = filtOpt w'.usrRoot.requiredDir)
    (h2 : filtOpt w.etcRoot.requiredDir = filtOpt w'.etcRoot.requiredDir)
    (h3 : w.usrRoot.wantedDir.filter (fun f => shName f.name)
      = w'.usrRoot.wantedDir.filter (fun f => shName f.name))
    (h4 : w.etcRoot.wantedDir.filter (fun f => shName f.name)
      = w'.etcRoot.wantedDir.filter (fun f => shName f.name)) :
    run_diagnostics w = run_diagnostics w' := by
  unfold run_diagnostics
  rw [requiredPass_congr [w.usrRoot.requiredDir, w.etcRoot.requiredDir]
      [w'.usrRoot.requiredDir, w'.etcRoot.requiredDir]
      (by simp [h1, h2]) false false,
    tierPass_congr Event.runWanted shName
      [w.usrRoot.wantedDir, w.etcRoot.wantedDir]
      [w'.usrRoot.wantedDir, w'.etcRoot.wantedDir] (by simp [h3, h4])]

theorem set_boot_counter_of_none (u : World) (n : Int)
    (hg : get_boot_counter u = none) (hw : u.grubWriteOk = true) :
    set_boot_counter n u
      = (Except.ok (), { u with env := setVar bcKey (intToChars n) u.env }) := by
  unfold set_boot_counter
  rw [hg, hw]
  simp

theorem set_boot_counter_of_some (u : World) (n t : Int)
    (hg : get_boot_counter u = some t) :
    set_boot_counter n u = (Except.ok (), u) := by
  unfold set_boot_counter
  rw [hg]

/-! ### Claim theorems -/

/-- C3: whenever the boot counter is absent or strictly above the
exhaustion threshold 0, `trigger_rollback` returns the descriptive
error "Rollback not initiated as boot_counter is either unset or not
equal to 0" (a nonempty message), leaves the world unchanged, and
invokes no external command — in particular never the rollback
primitive. -/
theorem c3_rollback_precondition (w : World)
    (h : get_boot_counter w = none
      ∨ ∃ t, get_boot_counter w = some t ∧ 0 < t) :
    trigger_rollback w
      = (Except.error (rollbackNotInitMsg ++ rollbackCondMsg), w, [])
    ∧ rollbackNotInitMsg ++ rollbackCondMsg ≠ [] := by
  refine ⟨?_, by decide⟩
  have hrb : handle_rollback w = (Except.error rollbackCondMsg, []) := by
    rcases h with h | ⟨t, ht, htp⟩
    · simp [handle_rollback, h]
    · have hnle : ¬ t ≤ 0 := not_le.mpr htp
      simp [handle_rollback, ht, hnle]
  simp [trigger_rollback, hrb]

/-- Witness for C3: the empty environment (counter absent). -/
theorem c3_witness :
    (get_boot_counter baseWorld = none
      ∨ ∃ t, get_boot_counter baseWorld = some t ∧ 0 < t)
    ∧ (trigger_rollback baseWorld
        = (Except.error (rollbackNotInitMsg ++ rollbackCondMsg),
            baseWorld, [])
      ∧ rollbackNotInitMsg ++ rollbackCondMsg ≠ []) :=
  ⟨Or.inl (by decide),
    c3_rollback_precondition baseWorld (Or.inl (by decide))⟩

/-- C4: with the counter present at `t ≤ 0`, `trigger_rollback` runs
the rollback primitive; if it exits 0 and the grub unset and reboot
commands can run, the counter is cleared, a forced reboot is issued
and the result is `ok`; if it exits nonzero, the world is left
untouched and the error surfaces the exit status. -/
theorem c4_rollback_exhausted (w : World) (t : Int)
    (hwf : WFenv w.env) (hc : get_boot_counter w = some t) (ht : t ≤ 0) :
    Event.rollbackCmd ∈ (trigger_rollback w).2.2
    ∧ (w.rollbackExit = some 0 → w.grubWriteOk = true →
        (trigger_rollback w).2.1.env = unsetVar bcKey w.env
        ∧ get_boot_counter (trigger_rollback w).2.1 = none
        ∧ Event.rebootCmd ∈ (trigger_rollback w).2.2
        ∧ (w.rebootOk = true → (trigger_rollback w).1 = Except.ok ()))
    ∧ (∀ c, w.rollbackExit = some c → c ≠ 0 →
        (trigger_rollback w).2.1 = w
        ∧ (trigger_rollback w).1
            = Except.error (rollbackNotInitMsg ++ statusStr c)) := by
  rcases hrx : w.rollbackExit with _ | c
  · have hhr : handle_rollback w
        = (Except.error rollbackIoErrMsg, [Event.rollbackCmd]) := by
      simp [handle_rollback, hc, ht, hrx]
    have htr : trigger_rollback w
        = (Except.error (rollbackNotInitMsg ++ rollbackIoErrMsg), w,
            [Event.rollbackCmd]) := by
      simp [trigger_rollback, hhr]
    refine ⟨by rw [htr]; simp, ?_, ?_⟩
    · intro h0; exact Option.noConfusion h0
    · intro c hcx; exact Option.noConfusion hcx
  · by_cases hc0 : c = 0
    · subst hc0
      have hhr : handle_rollback w = (Except.ok (), [Event.rollbackCmd]) := by
        simp [handle_rollback, hc, ht, hrx]
      cases hgw : w.grubWriteOk with
      | false =>
          have hub : unset_boot_counter w = (Except.error grubIoErrMsg, w) := by
            simp [unset_boot_counter, hgw]
          have htr : trigger_rollback w
              = (Except.error grubIoErrMsg, w, [Event.rollbackCmd]) := by
            simp [trigger_rollback, hhr, hub]
          refine ⟨by rw [htr]; simp, ?_, ?_⟩
          · intro _ hgw'; exact Bool.noConfusion hgw'
          · intro c hcx hc0
            injection hcx with hcc
            exact absurd hcc.symm hc0
      | true =>
          have hub : unset_boot_counter w
              = (Except.ok (), { w with env := unsetVar bcKey w.env }) := by
            simp [unset_boot_counter, hgw]
          have hgnone :
              get_boot_counter { w with env := unsetVar bcKey w.env }
                = none := get_boot_counter_env_unset w hwf
          cases hro : w.rebootOk with
          | true =>
              have hrb : handle_reboot true
                  { w with env := unsetVar bcKey w.env }
                  = (Except.ok (), [Event.rebootCmd]) := by
                simp [handle_reboot, rebootNow, hro]
              have htr : trigger_rollback w
                  = (Except.ok (), { w with env := unsetVar bcKey w.env },
                      [Event.rollbackCmd, Event.rebootCmd]) := by
                simp [trigger_rollback, hhr, hub, hrb]
              refine ⟨by rw [htr]; simp, ?_, ?_⟩
              · intro _ _
                refine ⟨by rw [htr], by rw [htr]; exact hgnone,
                  by rw [htr]; simp, fun _ => by rw [htr]⟩
              · intro c hcx hc0
                injection hcx with hcc
                exact absurd hcc.symm hc0
          | false =>
              have hrb : handle_reboot true
                  { w with env := unsetVar bcKey w.env }
                  = (Except.error rebootIoErrMsg, [Event.rebootCmd]) := by
                simp [handle_reboot, rebootNow, hro]
              have htr : trigger_rollback w
                  = (Except.error rebootIoErrMsg,
                      { w with env := unsetVar bcKey w.env },
                      [Event.rollbackCmd, Event.rebootCmd]) := by
                simp [trigger_rollback, hhr, hub, hrb]
              refine ⟨by rw [htr]; simp, ?_, ?_⟩
              · intro _ _
                refine ⟨by rw [htr], by rw [htr]; exact hgnone,
                  by rw [htr]; simp, fun hro' => ?_⟩
                exact Bool.noConfusion hro'
              · intro c hcx hc0
                injection hcx with hcc
                exact absurd hcc.symm hc0
    · have hhr : handle_rollback w
          = (Except.error (statusStr c), [Event.rollbackCmd]) := by
        simp [handle_rollback, hc, ht, hrx, hc0]
      have htr : trigger_rollback w
          = (Except.error (rollbackNotInitMsg ++ statusStr c), w,
              [Event.rollbackCmd]) := by
        simp [trigger_rollback, hhr]
      refine ⟨by rw [htr]; simp, ?_, ?_⟩
      · intro h0
        injection h0 with hcc
        exact absurd hcc hc0
      · intro c' hcx hc0'
        injection hcx with hcc
        subst hcc
        exact ⟨by rw [htr], by rw [htr]⟩

/-- Witness for C4: counter `boot_counter=0`, rollback exits 0. -/
theorem c4_witness :
    Event.rollbackCmd
      ∈ (trigger_rollback { baseWorld with env := [(bcKey, "0".data)] }).2.2 :=
  (c4_rollback_exhausted { baseWorld with env := [(bcKey, "0".data)] } 0
    (by unfold WFenv; decide) (by decide) (by decide)).1

/-- C5: from any well-formed store, `unset_boot_counter` then
`set_boot_counter n` makes `get_boot_counter` yield `some n`; a
further `set_boot_counter m` is a no-op (the state is unchanged), so
the counter still reads `some n` and not `some m`. -/
theorem c5_counter_roundtrip (w : World) (n m : Int)
    (hwf : WFenv w.env) (hr : w.grubReadOk = true)
    (hgw : w.grubWriteOk = true)
    (h1 : -(2 ^ 31) ≤ n) (h2 : n < 2 ^ 31) (hm : m ≠ n) :
    get_boot_counter (set_boot_counter n (unset_boot_counter w).2).2 = some n
    ∧ set_boot_counter m (set_boot_counter n (unset_boot_counter w).2).2
        = (Except.ok (), (set_boot_counter n (unset_boot_counter w).2).2)
    ∧ get_boot_counter
        (set_boot_counter m (set_boot_counter n (unset_boot_counter w).2).2).2
        = some n
    ∧ get_boot_counter
        (set_boot_counter m (set_boot_counter n (unset_boot_counter w).2).2).2
        ≠ some m := by
  have e1 : (unset_boot_counter w).2
      = { w with env := unsetVar bcKey w.env } := by
    simp [unset_boot_counter, hgw]
  rw [e1]
  have hwf1 : WFenv (unsetVar bcKey w.env) := WFenv_unsetVar bcKey w.env hwf
  have hg1 : get_boot_counter { w with env := unsetVar bcKey w.env }
      = none := get_boot_counter_env_unset w hwf
  have e2 : set_boot_counter n { w with env := unsetVar bcKey w.env }
      = (Except.ok (), { w with
          env := setVar bcKey (intToChars n) (unsetVar bcKey w.env) }) :=
    set_boot_counter_of_none { w with env := unsetVar bcKey w.env } n hg1 hgw
  rw [e2]
  dsimp only
  have hg2 : get_boot_counter { w with
      env := setVar bcKey (intToChars n) (unsetVar bcKey w.env) }
      = some n :=
    get_boot_counter_env_set { w with env := unsetVar bcKey w.env } n
      hwf1 hr h1 h2
  have e3 : set_boot_counter m { w with
      env := setVar bcKey (intToChars n) (unsetVar bcKey w.env) }
      = (Except.ok (), { w with
          env := setVar bcKey (intToChars n) (unsetVar bcKey w.env) }) :=
    set_boot_counter_of_some _ m n hg2
  rw [e3]
  dsimp only
  refine ⟨hg2, rfl, hg2, ?_⟩
  rw [hg2]
  intro hcon
  injection hcon with hc
  exact hm hc.symm

/-- Witness for C5: empty store, `n = 5`, `m = 7`. -/
theorem c5_witness :
    get_boot_counter
      (set_boot_counter 5 (unset_boot_counter baseWorld).2).2 = some 5 :=
  (c5_counter_roundtrip baseWorld 5 7 (by unfold WFenv; decide) rfl rfl
    (by decide) (by decide) (by decide)).1

/-- C6: when neither root has a `check/required.d` directory, the
diagnostics return the configuration error `required.d not found` and
the health check never passes, whatever else is installed. -/
theorem c6_no_required_dir (w : World)
    (hu : w.usrRoot.requiredDir = none) (he : w.etcRoot.requiredDir = none) :
    (run_diagnostics w).1 = Except.error requiredNotFoundMsg
    ∧ (health_check w).1.isOk = false := by
  have hd : run_diagnostics w = (Except.error requiredNotFoundMsg, []) := by
    simp [run_diagnostics, requiredPass, hu, he]
  exact ⟨by rw [hd], health_check_err_of_diag w _ (by rw [hd])⟩

/-- Witness for C6: the bare world with no check directories. -/
theorem c6_witness :
    (run_diagnostics baseWorld).1 = Except.error requiredNotFoundMsg
    ∧ (health_check baseWorld).1.isOk = false :=
  c6_no_required_dir baseWorld rfl rfl

/-- C7: when every discovered required script exits 0 and every
discovered wanted script runs and exits nonzero, the health check
passes (given that the boot-success store write can run): wanted
failures never flip the verdict. -/
theorem c7_wanted_failures_pass (w : World)
    (hp : w.usrRoot.requiredDir.isSome = true
      ∨ w.etcRoot.requiredDir.isSome = true)
    (hreq : ∀ d ∈ [w.usrRoot.requiredDir, w.etcRoot.requiredDir],
      ∀ files, d = some files →
        ∀ f ∈ files, shName f.name = true → f.run = ScriptRun.exited true)
    (hwant : ∀ files ∈ [w.usrRoot.wantedDir, w.etcRoot.wantedDir],
      ∀ f ∈ files, shName f.name = true → f.run = ScriptRun.exited false)
    (hgw : w.grubWriteOk = true) :
    (health_check w).1 = Except.ok () := by
  obtain ⟨es, hd⟩ := run_diagnostics_ok w hp hreq
    (fun fs hfs f hf hsh => by rw [hwant fs hfs f hf hsh]; intro hc; cases hc)
  have hbs : handle_boot_success true w
      = (Except.ok (),
          { w with env := unsetVar bcKey (setVar bsKey "1".data w.env) }) := by
    simp [handle_boot_success, hgw]
  simp only [health_check, hd, hbs]

/-- Witness for C7: one passing required script, one failing wanted
script. -/
theorem c7_witness :
    (health_check { baseWorld with
      usrRoot := { baseRoot with
        requiredDir := some [⟨"ok.sh".data, ScriptRun.exited true⟩],
        wantedDir := [⟨"w.sh".data, ScriptRun.exited false⟩] } }).1
      = Except.ok () :=
  c7_wanted_failures_pass _ (Or.inl (by decide)) (by decide) (by decide) rfl

/-- C9: `handle_boot_success true` sets `boot_success=1` and unsets
the boot counter; `handle_boot_success false` only sets
`boot_success=0` and leaves the `boot_counter` binding exactly as it
was. -/
theorem c9_boot_success_frame (w : World) (hgw : w.grubWriteOk = true) :
    handle_boot_success true w
      = (Except.ok (),
          { w with env := unsetVar bcKey (setVar bsKey "1".data w.env) })
    ∧ lookupVar bcKey (handle_boot_success true w).2.env = none
    ∧ lookupVar bsKey (handle_boot_success true w).2.env = some "1".data
    ∧ handle_boot_success false w
      = (Except.ok (), { w with env := setVar bsKey "0".data w.env })
    ∧ lookupVar bcKey (handle_boot_success false w).2.env
        = lookupVar bcKey w.env
    ∧ lookupVar bsKey (handle_boot_success false w).2.env
        = some "0".data := by
  have ht : handle_boot_success true w
      = (Except.ok (),
          { w with env := unsetVar bcKey (setVar bsKey "1".data w.env) }) := by
    simp [handle_boot_success, hgw]
  have hf : handle_boot_success false w
      = (Except.ok (), { w with env := setVar bsKey "0".data w.env }) := by
    simp [handle_boot_success, hgw]
  refine ⟨ht, ?_, ?_, hf, ?_, ?_⟩
  · rw [ht]
    exact lookupVar_unsetVar_same bcKey _
  · rw [ht]
    show lookupVar bsKey (unsetVar bcKey (setVar bsKey "1".data w.env)) = _
    rw [lookupVar_unsetVar_other bsKey bcKey (by decide),
      lookupVar_setVar_same]
  · rw [hf]
    exact lookupVar_setVar_other bcKey bsKey "0".data (by decide) w.env
  · rw [hf]
    exact lookupVar_setVar_same bsKey "0".data w.env

/-- Witness for C9 at a store holding `boot_counter=7`. -/
theorem c9_witness :
    lookupVar bcKey
      (handle_boot_success false
        { baseWorld with env := [(bcKey, "7".data)] }).2.env
      = lookupVar bcKey [(bcKey, "7".data)] :=
  (c9_boot_success_frame { baseWorld with env := [(bcKey, "7".data)] }
    rfl).2.2.2.2.1

/-- The four outcomes of `health_check` as a function of the
diagnostics verdict and the grub write flag. -/
theorem health_check_ok_of_diag (w : World)
    (hd : (run_diagnostics w).1 = Except.ok ())
    (hgw : w.grubWriteOk = true) :
    (health_check w).1 = Except.ok () := by
  rcases hdq : run_diagnostics w with ⟨res, es⟩
  rw [hdq] at hd
  replace hd : res = Except.ok () := hd
  subst hd
  have hbs : handle_boot_success true w
      = (Except.ok (),
          { w with env := unsetVar bcKey (setVar bsKey "1".data w.env) }) := by
    simp [handle_boot_success, hgw]
  simp only [health_check, hdq, hbs]

theorem health_check_store_err_of_diag_ok (w : World)
    (hd : (run_diagnostics w).1 = Except.ok ())
    (hgw : w.grubWriteOk = false) :
    (health_check w).1 = Except.error grubIoErrMsg := by
  rcases hdq : run_diagnostics w with ⟨res, es⟩
  rw [hdq] at hd
  replace hd : res = Except.ok () := hd
  subst hd
  have hbs : handle_boot_success true w = (Except.error grubIoErrMsg, w) := by
    simp [handle_boot_success, hgw]
  simp only [health_check, hdq, hbs]

theorem health_check_err_eq_of_diag (w : World) (e : Str)
    (hd : (run_diagnostics w).1 = Except.error e)
    (hgw : w.grubWriteOk = true) :
    (health_check w).1 = Except.error e := by
  rcases hdq : run_diagnostics w with ⟨res, es⟩
  rw [hdq] at hd
  replace hd : res = Except.error e := hd
  subst hd
  have hbs : handle_boot_success false w
      = (Except.ok (), { w with env := setVar bsKey "0".data w.env }) := by
    simp [handle_boot_success, hgw]
  rcases hsc : set_boot_counter (maxRebootOf w)
      { w with env := setVar bsKey "0".data w.env } with ⟨sres, w3⟩
  simp only [health_check, hdq, hbs, hsc]

theorem health_check_store_err_of_diag_err (w : World) (e : Str)
    (hd : (run_diagnostics w).1 = Except.error e)
    (hgw : w.grubWriteOk = false) :
    (health_check w).1 = Except.error grubIoErrMsg := by
  rcases hdq : run_diagnostics w with ⟨res, es⟩
  rw [hdq] at hd
  replace hd : res = Except.error e := hd
  subst hd
  have hbs : handle_boot_success false w = (Except.error grubIoErrMsg, w) := by
    simp [handle_boot_success, hgw]
  simp only [health_check, hdq, hbs]

/-- `rebootNow` always records the reboot invocation. -/
theorem rebootNow_events (u : World) :
    (rebootNow u).2 = [Event.rebootCmd] := by
  unfold rebootNow
  split <;> rfl

/-- C1 as stated is false: with the boot counter present at `0` and a
required script failing, the failure branch issues no reboot command
at all — `handle_reboot false` is counter-gated and bails out. -/
theorem c1_counterexample :
    (run_diagnostics wC1).1.isOk = false
    ∧ Event.rebootCmd ∉ (health_check wC1).2.2 := by decide

/-- C1 amended: the failure-branch reboot goes through the
counter-gated `handle_reboot false` after the counter is established:
with a readable and writable store, a counter already at `t ≤ 0`
suppresses the reboot command entirely (its gate error is logged and
swallowed), while an absent counter is first set to `max_reboot`, so
the reboot command is issued exactly when `0 < max_reboot`. -/
theorem c1_reboot_gated (w : World) (e : Str)
    (hwf : WFenv w.env) (hr : w.grubReadOk = true)
    (hgw : w.grubWriteOk = true)
    (hd : (run_diagnostics w).1 = Except.error e) :
    ((∃ t, get_boot_counter w = some t ∧ t ≤ 0) →
        Event.rebootCmd ∉ (health_check w).2.2)
    ∧ (get_boot_counter w = none → 0 < maxRebootOf w →
        maxRebootOf w < 2 ^ 31 → Event.rebootCmd ∈ (health_check w).2.2) := by
  rcases hdq : run_diagnostics w with ⟨res, es⟩
  rw [hdq] at hd
  replace hd : res = Except.error e := hd
  subst hd
  have hbs : handle_boot_success false w
      = (Except.ok (), { w with env := setVar bsKey "0".data w.env }) := by
    simp [handle_boot_success, hgw]
  have hg2 : get_boot_counter { w with env := setVar bsKey "0".data w.env }
      = get_boot_counter w :=
    get_boot_counter_env_setSuccess w "0".data (Or.inl rfl) hwf
  constructor
  · rintro ⟨t, hct, ht⟩
    have hg2t : get_boot_counter
        { w with env := setVar bsKey "0".data w.env } = some t :=
      hg2.trans hct
    have hsc : set_boot_counter (maxRebootOf w)
        { w with env := setVar bsKey "0".data w.env }
        = (Except.ok (), { w with env := setVar bsKey "0".data w.env }) :=
      set_boot_counter_of_some _ _ t hg2t
    have hhrb : handle_reboot false
        { w with env := setVar bsKey "0".data w.env }
        = (Except.error countdownEndedMsg, []) := by
      simp [handle_reboot, hg2t, ht]
    have hhc : health_check w
        = (Except.error e, { w with env := setVar bsKey "0".data w.env },
            es ++ (run_red w).2 ++ []) := by
      simp only [health_check, hdq, hbs, hsc, hhrb]
    rw [hhc]
    intro hmem
    simp only [List.append_nil, List.mem_append] at hmem
    rcases hmem with hmem | hmem
    · rcases run_diagnostics_events w Event.rebootCmd
        (by rw [hdq]; exact hmem) with ⟨nm, _, hne⟩ | ⟨nm, _, hne⟩ <;>
        cases hne
    · obtain ⟨nm, _, hne⟩ := tierPass_events Event.runRed dotName _
        Event.rebootCmd hmem
      cases hne
  · intro hcn hpos hlt
    have hg2n : get_boot_counter
        { w with env := setVar bsKey "0".data w.env } = none :=
      hg2.trans hcn
    have hsc : set_boot_counter (maxRebootOf w)
        { w with env := setVar bsKey "0".data w.env }
        = (Except.ok (),
            { w with env :=
                (setVar bcKey (intToChars (maxRebootOf w))
                  (setVar bsKey "0".data w.env)) }) :=
      set_boot_counter_of_none _ _ hg2n hgw
    have hwf2 : WFenv (setVar bsKey "0".data w.env) :=
      WFenv_setVar_bs "0".data (Or.inl rfl) w.env hwf
    have hg3 : get_boot_counter
        { w with env :=
            (setVar bcKey (intToChars (maxRebootOf w))
              (setVar bsKey "0".data w.env)) }
        = some (maxRebootOf w) :=
      get_boot_counter_env_set
        { w with env := setVar bsKey "0".data w.env } (maxRebootOf w)
        hwf2 hr (by omega) hlt
    have hhrb : (handle_reboot false
        { w with env :=
            (setVar bcKey (intToChars (maxRebootOf w))
              (setVar bsKey "0".data w.env)) }).2
        = [Event.rebootCmd] := by
      have hnle : ¬ maxRebootOf w ≤ 0 := not_le.mpr hpos
      simp [handle_reboot, hg3, hnle, rebootNow_events]
    have hhc : health_check w
        = (Except.error e,
            { w with env :=
                (setVar bcKey (intToChars (maxRebootOf w))
                  (setVar bsKey "0".data w.env)) },
            es ++ (run_red w).2
              ++ (handle_reboot false
                  { w with env :=
                      (setVar bcKey (intToChars (maxRebootOf w))
                        (setVar bsKey "0".data w.env)) }).2) := by
      simp only [health_check, hdq, hbs, hsc]
    rw [hhc]
    simp [hhrb]

/-- Witness for C1: the gate suppresses the reboot at counter `0` and
issues it when the counter is unset (default budget 3). -/
theorem c1_witness :
    Event.rebootCmd ∉ (health_check wC1).2.2
    ∧ Event.rebootCmd ∈ (health_check wC1b).2.2 :=
  ⟨(c1_reboot_gated wC1 healthFailedMsg (by unfold WFenv; decide) rfl rfl
      (by decide)).1 ⟨0, by decide, by decide⟩,
    (c1_reboot_gated wC1b healthFailedMsg (by unfold WFenv; decide) rfl rfl
      (by decide)).2 (by decide) (by decide) (by decide)⟩

/-- C2 as stated is false: a failure of the boot-success store write
is propagated, not swallowed — with passing diagnostics and a failing
`grub2-editenv`, `health_check` returns an error. -/
theorem c2_counterexample : (health_check wC2).1.isOk = false := by decide

/-- C2 amended: the failures `health_check` propagates are the
diagnostics errors (required discovery, required/wanted launch errors
and the failure verdict) and the boot-success store write; with the
store write working, the failure branch returns exactly the
diagnostics error whatever the motd, red/green scripts or the reboot
command do — those failures are swallowed. -/
theorem c2_error_policy (w : World) :
    ((run_diagnostics w).1 = Except.ok () → w.grubWriteOk = false →
        (health_check w).1.isOk = false)
    ∧ (∀ e, (run_diagnostics w).1 = Except.error e → w.grubWriteOk = true →
        (health_check w).1 = Except.error e)
    ∧ ((run_diagnostics w).1 = Except.ok () → w.grubWriteOk = true →
        (health_check w).1 = Except.ok ()) := by
  refine ⟨?_, ?_, ?_⟩
  · intro hd hgw
    rw [health_check_store_err_of_diag_ok w hd hgw]
    rfl
  · intro e hd hgw
    exact health_check_err_eq_of_diag w e hd hgw
  · intro hd hgw
    exact health_check_ok_of_diag w hd hgw

/-- Witness for C2: the store-write failure propagates on `wC2`; on
`wC1` (reboot gate failing, counter exhausted) the returned error is
still the diagnostics error. -/
theorem c2_witness :
    (health_check wC2).1.isOk = false
    ∧ (health_check wC1).1 = Except.error healthFailedMsg :=
  ⟨(c2_error_policy wC2).1 (by decide) rfl,
    (c2_error_policy wC1).2.1 healthFailedMsg (by decide) rfl⟩

/-- C8 as stated is false: a launch error of a wanted script is not
merely logged — it aborts the diagnostics and fails the health check
even though every required script passed. -/
theorem c8_counterexample : (health_check wC8).1.isOk = false := by decide

/-- C8 amended: a script launch error is a hard health-check failure
for the Required and the Wanted tier alike (the `?` on `output()`
aborts `run_diagnostics`), while the red and green listings never
influence the health-check result. -/
theorem c8_launch_errors (w : World) :
    ((∃ d ∈ [w.usrRoot.requiredDir, w.etcRoot.requiredDir],
        ∃ files, d = some files ∧
          ∃ f ∈ files.filter (fun f => shName f.name),
            f.run = ScriptRun.launchErr) →
      (health_check w).1.isOk = false)
    ∧ ((∃ files ∈ [w.usrRoot.wantedDir, w.etcRoot.wantedDir],
        ∃ f ∈ files.filter (fun f => shName f.name),
          f.run = ScriptRun.launchErr) →
      (health_check w).1.isOk = false)
    ∧ (∀ r0 g0 r1 g1,
        (health_check (updateRG w r0 g0 r1 g1)).1 = (health_check w).1) := by
  refine ⟨?_, ?_, ?_⟩
  · intro h
    obtain ⟨msg, es, hd⟩ := run_diagnostics_err_required w h
    exact health_check_err_of_diag w msg (by rw [hd])
  · intro h
    obtain ⟨msg, es, hd⟩ := run_diagnostics_err_wanted w h
    exact health_check_err_of_diag w msg (by rw [hd])
  · intro r0 g0 r1 g1
    have hdg : run_diagnostics (updateRG w r0 g0 r1 g1)
        = run_diagnostics w :=
      run_diagnostics_congr _ w rfl rfl rfl rfl
    have hgw2 : (updateRG w r0 g0 r1 g1).grubWriteOk = w.grubWriteOk := rfl
    rcases hdq : run_diagnostics w with ⟨res, es⟩
    cases res with
    | ok u =>
        cases u
        cases hgw : w.grubWriteOk with
        | true =>
            rw [health_check_ok_of_diag _ (by rw [hdg, hdq])
                (hgw2.trans hgw),
              health_check_ok_of_diag w (by rw [hdq]) hgw]
        | false =>
            rw [health_check_store_err_of_diag_ok _ (by rw [hdg, hdq])
                (hgw2.trans hgw),
              health_check_store_err_of_diag_ok w (by rw [hdq]) hgw]
    | error e =>
        cases hgw : w.grubWriteOk with
        | true =>
            rw [health_check_err_eq_of_diag _ e (by rw [hdg, hdq])
                (hgw2.trans hgw),
              health_check_err_eq_of_diag w e (by rw [hdq]) hgw]
        | false =>
            rw [health_check_store_err_of_diag_err _ e (by rw [hdg, hdq])
                (hgw2.trans hgw),
              health_check_store_err_of_diag_err w e (by rw [hdq]) hgw]

/-- Witness for C8: a required launch error fails the check, a wanted
launch error fails it too, and red/green listings never matter. -/
theorem c8_witness :
    (health_check wC8b).1.isOk = false
    ∧ (health_check wC8).1.isOk = false
    ∧ (health_check (updateRG baseWorld
        [⟨"r.x".data, ScriptRun.launchErr⟩] [] [] [])).1
      = (health_check baseWorld).1 :=
  ⟨(c8_launch_errors wC8b).1 ⟨wC8b.usrRoot.requiredDir, by decide,
      [⟨"bad.sh".data, ScriptRun.launchErr⟩], by decide, by decide⟩,
    (c8_launch_errors wC8).2.1 ⟨wC8.usrRoot.wantedDir, by decide,
      ⟨"w.sh".data, ScriptRun.launchErr⟩, by decide, by decide⟩,
    (c8_launch_errors baseWorld).2.2
      [⟨"r.x".data, ScriptRun.launchErr⟩] [] [] []⟩

/-- C10: required and wanted discovery is by the `*.sh` glob, red and
green discovery by the `*.*` glob (a dot in the name); the diagnostics
outcome depends only on the glob-filtered listings, so files whose
names do not match are never run and cannot affect the verdict. -/
theorem c10_tier_globs (w : World) :
    (∀ nm, Event.runRequired nm ∈ (run_diagnostics w).2 → shName nm = true)
    ∧ (∀ nm, Event.runWanted nm ∈ (run_diagnostics w).2 → shName nm = true)
    ∧ (∀ nm, Event.runRed nm ∈ (run_red w).2 → dotName nm = true)
    ∧ (∀ nm, Event.runGreen nm ∈ (run_green w).2 → dotName nm = true)
    ∧ (∀ w', filtOpt w.usrRoot.requiredDir = filtOpt w'.usrRoot.requiredDir →
        filtOpt w.etcRoot.requiredDir = filtOpt w'.etcRoot.requiredDir →
        w.usrRoot.wantedDir.filter (fun f => shName f.name)
          = w'.usrRoot.wantedDir.filter (fun f => shName f.name) →
        w.etcRoot.wantedDir.filter (fun f => shName f.name)
          = w'.etcRoot.wantedDir.filter (fun f => shName f.name) →
        run_diagnostics w = run_diagnostics w') := by
  refine ⟨?_, ?_, ?_, ?_, ?_⟩
  · intro nm hm
    rcases run_diagnostics_events w _ hm with ⟨nm2, hs, he⟩ | ⟨nm2, hs, he⟩
    · injection he with h
      rw [h]
      exact hs
    · cases he
  · intro nm hm
    rcases run_diagnostics_events w _ hm with ⟨nm2, hs, he⟩ | ⟨nm2, hs, he⟩
    · cases he
    · injection he with h
      rw [h]
      exact hs
  · intro nm hm
    obtain ⟨nm2, hp, he⟩ := tierPass_events Event.runRed dotName _ _ hm
    injection he with h
    rw [h]
    exact hp
  · intro nm hm
    obtain ⟨nm2, hp, he⟩ := tierPass_events Event.runGreen dotName _ _ hm
    injection he with h
    rw [h]
    exact hp
  · intro w' h1 h2 h3 h4
    exact run_diagnostics_congr w w' h1 h2 h3 h4

/-- Witness for C10: a non-`*.sh` file in `required.d` (even a failing
one) is invisible to the diagnostics, and every executed required
script has a `*.sh` name. -/
theorem c10_witness :
    run_diagnostics wC10a = run_diagnostics wC10b
    ∧ shName "ok.sh".data = true :=
  ⟨(c10_tier_globs wC10a).2.2.2.2 wC10b (by decide) (by decide) (by decide)
      (by decide),
    (c10_tier_globs wC10a).1 "ok.sh".data (by decide)⟩

end Greenboot
